import Mathlib

/-!
Verification of the ad-service cache-aside repository, service and handler
layers, shallowly embedded from the Go sources.

Modelling conventions:
* `internal/domain.Ad` becomes the structure `Ad`; the `float64` price is
  carried opaquely as `Int` (no claim computes with prices) and the two
  MySQL timestamps are ticks of a logical store clock (`Nat`).
* The Redis cache (`internal/infrastructure/cache`) is an association list
  from string keys to stored values.  Serialized JSON payloads are embedded
  as the tagged type `CacheVal`: `json.Marshal` of an ad (or ad list)
  becomes the corresponding constructor, `json.Unmarshal` its partial
  inverse, and any other cached bytes are `CacheVal.raw` (unparseable).
  TTLs are passed by the code but expiry is not exercised by any claim and
  is not modelled.
* The MySQL table `ads` is the row list of `DBState` together with the
  store clock `now` used for `updated_at = CURRENT_TIMESTAMP`.
  `RowsAffected` of the UPDATE/DELETE statements is 1 when a row with the
  id exists and 0 otherwise (the UPDATE always bumps `updated_at`, so a
  matched row counts as changed).
* Infrastructure failures of the external calls (redis get/set, SQL
  queries, `json.Marshal`) are decided by explicit per-operation fault
  records; a redis `Get` failure covers both a network error and a miss
  (`redis.Nil`), which the Go code treats identically.  `cache.Set` and
  `cache.Delete` have their returned errors ignored by the code; a failed
  `Set` leaves the cache unchanged, and `Delete` is modelled as taking
  effect.
* Every operation returns its result together with the final cache state,
  the final store state and the trace of external calls it performed
  (`Event`), which is what the frame claims quantify over.
-/

namespace AdSvc

/-- The `Ad` entity of `internal/domain/ad.go`. -/
structure Ad where
  id : Int
  title : String
  description : String
  price : Int
  createdAt : Nat
  updatedAt : Nat
  active : Bool
deriving DecidableEq, Repr

/-- A value stored in the cache: the serialized form of an ad, of an ad
list, or arbitrary unparseable bytes. -/
inductive CacheVal where
  | adJSON (a : Ad)
  | adListJSON (l : List Ad)
  | raw (s : String)
deriving DecidableEq, Repr

/-- Embedding of `json.Unmarshal` into a single `domain.Ad`. -/
def unmarshalAd : CacheVal → Option Ad
  | CacheVal.adJSON a => some a
  | _ => none

/-- Embedding of `json.Unmarshal` into `[]*domain.Ad`. -/
def unmarshalAdList : CacheVal → Option (List Ad)
  | CacheVal.adListJSON l => some l
  | _ => none

/-- The key-value cache state (Redis): an association list. -/
abbrev CacheState := List (String × CacheVal)

/-- Cache read (`cache.Get`): first entry with the key, if any. -/
def cacheGetVal (c : CacheState) (k : String) : Option CacheVal :=
  (c.find? (fun p => p.1 == k)).map Prod.snd

/-- Cache write (`cache.Set`): the key is bound to the new value. -/
def cacheSetVal (c : CacheState) (k : String) (v : CacheVal) : CacheState :=
  (k, v) :: c.filter (fun p => p.1 != k)

/-- Cache delete (`cache.Delete`): every binding of the key is removed. -/
def cacheDeleteVal (c : CacheState) (k : String) : CacheState :=
  c.filter (fun p => p.1 != k)

/-- The relational store: the rows of the `ads` table and the store clock
used for `CURRENT_TIMESTAMP`. -/
structure DBState where
  rows : List Ad
  now : Nat
deriving DecidableEq, Repr

/-- Row lookup by primary key (`SELECT ... WHERE id = ?`). -/
def dbFind (db : DBState) (id : Int) : Option Ad :=
  db.rows.find? (fun a => a.id == id)

/-- Effect of the UPDATE statement on one row: `title`, `description`,
`price`, `active` are overwritten, `updated_at` is set to
`CURRENT_TIMESTAMP` by the store, `id` and `created_at` are untouched. -/
def applyUpdate (old upd : Ad) (now : Nat) : Ad :=
  ⟨old.id, upd.title, upd.description, upd.price, old.createdAt, now, upd.active⟩

/-- Executing the UPDATE: returns the new store state and `RowsAffected`. -/
def dbUpdateExec (db : DBState) (ad : Ad) : DBState × Nat :=
  match dbFind db ad.id with
  | none => (db, 0)
  | some _ =>
      (⟨db.rows.map (fun a => if a.id = ad.id then applyUpdate a ad db.now else a), db.now⟩, 1)

/-- Executing the DELETE: returns the new store state and `RowsAffected`. -/
def dbDeleteExec (db : DBState) (id : Int) : DBState × Nat :=
  match dbFind db id with
  | none => (db, 0)
  | some _ => (⟨db.rows.filter (fun a => a.id != id), db.now⟩, 1)

/-- One external call performed by an operation, in order. -/
inductive Event where
  | cacheGet (key : String)
  | cacheSet (key : String)
  | cacheDel (key : String)
  | storeQuery (q : String)
deriving DecidableEq, Repr

/-- The error values that flow between the layers. -/
inductive Err where
  /-- `sql.ErrNoRows`. -/
  | noRows
  /-- a wrapped store / driver / transport error. -/
  | storeFailure
  /-- `service.ErrInvalidID`. -/
  | invalidID
  /-- `service.ErrAdNotFound`. -/
  | adNotFound
deriving DecidableEq, Repr

/-- Result of one repository or service operation: the returned value or
error, the cache and store states after the call, and the external calls
performed. -/
structure Outcome (α : Type) where
  res : Except Err α
  cache : CacheState
  db : DBState
  events : List Event
deriving Repr

instance {ε α : Type} [DecidableEq ε] [DecidableEq α] : DecidableEq (Except ε α) := fun x y =>
  match x, y with
  | Except.ok a, Except.ok b =>
      if h : a = b then Decidable.isTrue (by rw [h]) else Decidable.isFalse (by simp [h])
  | Except.error a, Except.error b =>
      if h : a = b then Decidable.isTrue (by rw [h]) else Decidable.isFalse (by simp [h])
  | Except.ok _, Except.error _ => Decidable.isFalse (by simp)
  | Except.error _, Except.ok _ => Decidable.isFalse (by simp)

/-- Per-id cache key, `fmt.Sprintf("ad:%d", id)`. -/
def adKey (id : Int) : String := "ad:" ++ toString id

/-- The fixed list-cache key. -/
def defaultPageKey : String := "ads:default_page"

/-- Query text of the per-id read in `GetAdByID`. -/
def getByIdQuery : String :=
  "\n\t\tSELECT id, title, description, price, created_at, updated_at, active \n\t\tFROM ads \n\t\tWHERE id = ?\n\t"

/-- Query text built by `GetAllAds` via `fmt.Sprintf`: the sort column and
direction are interpolated into the text, the limit and offset are bound
as parameters. -/
def buildListQuery (sortBy order : String) : String :=
  "\n\t\tSELECT id, title, description, price, created_at, updated_at, active\n\t\tFROM ads\n\t\tORDER BY " ++ sortBy ++ " " ++ order ++ "\n\t\tLIMIT ? OFFSET ?"

/-- Query text of the UPDATE statement in `UpdateAd`. -/
def updateQuery : String :=
  "\n\t\tUPDATE ads\n\t\tSET title = ?, description = ?, price = ?, active = ?, updated_at = CURRENT_TIMESTAMP\n\t\tWHERE id = ?\n\t"

/-- Query text of the re-read after the UPDATE in `UpdateAd`. -/
def rereadQuery : String :=
  "SELECT id, title, description, price, active, created_at, updated_at FROM ads WHERE id = ?"

/-- Query text of the DELETE statement in `DeleteAd`. -/
def deleteQuery : String := "\n\t\tDELETE FROM ads WHERE id = ?\n\t"

/-- Query text of `CountAds`. -/
def countQuery : String := "SELECT COUNT(*) FROM ads"

/-- Comparison key used when the interpolated `ORDER BY` column is one of
the five real columns of the schema.  Any other identifier makes the SQL
statement itself invalid; the store then errors, which the fault records
below account for, and the row order produced here is immaterial. -/
def adLe (sortBy : String) (x y : Ad) : Bool :=
  if sortBy == "id" then decide (x.id ≤ y.id)
  else if sortBy == "title" then decide (x.title ≤ y.title)
  else if sortBy == "price" then decide (x.price ≤ y.price)
  else if sortBy == "created_at" then decide (x.createdAt ≤ y.createdAt)
  else if sortBy == "updated_at" then decide (x.updatedAt ≤ y.updatedAt)
  else true

/-- Insertion step of the sort used to model `ORDER BY`. -/
def insertLe (le : Ad → Ad → Bool) (a : Ad) : List Ad → List Ad
  | [] => [a]
  | b :: t => if le a b then a :: b :: t else b :: insertLe le a t

/-- Insertion sort used to model `ORDER BY`. -/
def sortAds (le : Ad → Ad → Bool) : List Ad → List Ad
  | [] => []
  | a :: t => insertLe le a (sortAds le t)

/-- Rows produced by the list query: `ORDER BY <sortBy> <order> LIMIT ?
OFFSET ?` over the `ads` table. -/
def runListQuery (db : DBState) (limit offset : Int) (sortBy order : String) : List Ad :=
  let le := if order == "DESC" then (fun x y => adLe sortBy y x) else adLe sortBy
  ((sortAds le db.rows).drop offset.toNat).take limit.toNat

/-- The exact parameter tuple eligible for list caching
(`repository.GetAllAds`). -/
def isDefaultPagination (limit offset : Int) (sortBy order : String) : Bool :=
  limit == 10 && offset == 0 && sortBy == "created_at" && order == "ASC"

namespace Repository

/-- Fault record for one `GetAdByID` call: which of its external calls
fail. -/
structure GetByIdFaults where
  cacheGetFails : Bool
  storeReadFails : Bool
  marshalFails : Bool
  cacheSetFails : Bool
deriving DecidableEq, Repr

/-- Repository `GetAdByID`: try the cache under `"ad:<id>"`; on a
parseable hit return it; otherwise fall through to the store, and on a
store hit best-effort re-populate the cache. -/
def GetAdByID (c : CacheState) (db : DBState) (f : GetByIdFaults) (id : Int) : Outcome Ad :=
  let key := adKey id
  let cached := if f.cacheGetFails then none else cacheGetVal c key
  match cached.bind unmarshalAd with
  | some ad => ⟨Except.ok ad, c, db, [Event.cacheGet key]⟩
  | none =>
    if f.storeReadFails then
      ⟨Except.error Err.storeFailure, c, db, [Event.cacheGet key, Event.storeQuery getByIdQuery]⟩
    else
      match dbFind db id with
      | none => ⟨Except.error Err.noRows, c, db, [Event.cacheGet key, Event.storeQuery getByIdQuery]⟩
      | some ad =>
        if f.marshalFails then
          ⟨Except.ok ad, c, db, [Event.cacheGet key, Event.storeQuery getByIdQuery]⟩
        else
          ⟨Except.ok ad,
           if f.cacheSetFails then c else cacheSetVal c key (CacheVal.adJSON ad),
           db,
           [Event.cacheGet key, Event.storeQuery getByIdQuery, Event.cacheSet key]⟩

/-- Fault record for one `GetAllAds` call; `queryFails` covers the three
store-side error returns (`QueryContext`, `Scan`, `rows.Err`). -/
structure ListFaults where
  cacheGetFails : Bool
  queryFails : Bool
  marshalFails : Bool
  cacheSetFails : Bool
deriving DecidableEq, Repr

/-- Repository `GetAllAds`: only the default pagination tuple consults or
populates the list cache under `"ads:default_page"`; every other tuple
goes straight to the store. -/
def GetAllAds (c : CacheState) (db : DBState) (f : ListFaults)
    (limit offset : Int) (sortBy order : String) : Outcome (List Ad) :=
  let isDef := isDefaultPagination limit offset sortBy order
  let hitEvents := if isDef then [Event.cacheGet defaultPageKey] else []
  let cached := if isDef then (if f.cacheGetFails then none else cacheGetVal c defaultPageKey) else none
  match cached.bind unmarshalAdList with
  | some ads => ⟨Except.ok ads, c, db, hitEvents⟩
  | none =>
    let ev1 := hitEvents ++ [Event.storeQuery (buildListQuery sortBy order)]
    if f.queryFails then ⟨Except.error Err.storeFailure, c, db, ev1⟩
    else
      let ads := runListQuery db limit offset sortBy order
      if isDef then
        if f.marshalFails then ⟨Except.ok ads, c, db, ev1⟩
        else
          ⟨Except.ok ads,
           if f.cacheSetFails then c else cacheSetVal c defaultPageKey (CacheVal.adListJSON ads),
           db, ev1 ++ [Event.cacheSet defaultPageKey]⟩
      else ⟨Except.ok ads, c, db, ev1⟩

/-- Fault record for one `UpdateAd` call. -/
structure UpdateFaults where
  execFails : Bool
  rowsAffectedFails : Bool
  rereadFails : Bool
  marshalFails : Bool
  cacheSetFails : Bool
deriving DecidableEq, Repr

/-- Repository `UpdateAd`: execute the UPDATE; zero rows affected is
`sql.ErrNoRows` with no cache interaction; otherwise delete `"ad:<id>"`,
re-read the updated row and best-effort re-populate the cache with it. -/
def UpdateAd (c : CacheState) (db : DBState) (f : UpdateFaults) (ad : Ad) : Outcome Ad :=
  if f.execFails then ⟨Except.error Err.storeFailure, c, db, [Event.storeQuery updateQuery]⟩
  else
    let r := dbUpdateExec db ad
    if f.rowsAffectedFails then
      ⟨Except.error Err.storeFailure, c, r.1, [Event.storeQuery updateQuery]⟩
    else if r.2 == 0 then
      ⟨Except.error Err.noRows, c, r.1, [Event.storeQuery updateQuery]⟩
    else
      let key := adKey ad.id
      let c1 := cacheDeleteVal c key
      let ev1 := [Event.storeQuery updateQuery, Event.cacheDel key, Event.storeQuery rereadQuery]
      if f.rereadFails then ⟨Except.error Err.storeFailure, c1, r.1, ev1⟩
      else
        match dbFind r.1 ad.id with
        | none => ⟨Except.error Err.noRows, c1, r.1, ev1⟩
        | some u =>
          if f.marshalFails then ⟨Except.ok u, c1, r.1, ev1⟩
          else
            ⟨Except.ok u,
             if f.cacheSetFails then c1 else cacheSetVal c1 key (CacheVal.adJSON u),
             r.1, ev1 ++ [Event.cacheSet key]⟩

/-- Fault record for one `DeleteAd` call. -/
structure DeleteFaults where
  execFails : Bool
  rowsAffectedFails : Bool
deriving DecidableEq, Repr

/-- Repository `DeleteAd`: execute the DELETE; zero rows affected is
`sql.ErrNoRows` with no cache interaction; on success delete `"ad:<id>"`. -/
def DeleteAd (c : CacheState) (db : DBState) (f : DeleteFaults) (id : Int) : Outcome Unit :=
  if f.execFails then ⟨Except.error Err.storeFailure, c, db, [Event.storeQuery deleteQuery]⟩
  else
    let r := dbDeleteExec db id
    if f.rowsAffectedFails then
      ⟨Except.error Err.storeFailure, c, r.1, [Event.storeQuery deleteQuery]⟩
    else if r.2 == 0 then
      ⟨Except.error Err.noRows, c, r.1, [Event.storeQuery deleteQuery]⟩
    else
      ⟨Except.ok (), cacheDeleteVal c (adKey id), r.1,
       [Event.storeQuery deleteQuery, Event.cacheDel (adKey id)]⟩

/-- Repository `CountAds`. -/
def CountAds (db : DBState) (fails : Bool) : Except Err Int × List Event :=
  if fails then (Except.error Err.storeFailure, [Event.storeQuery countQuery])
  else (Except.ok (Int.ofNat db.rows.length), [Event.storeQuery countQuery])

end Repository

namespace Service

/-- The service maps `sql.ErrNoRows` (via `errors.Is`) to `ErrAdNotFound`
and passes every other repository error through unchanged. -/
def mapRepoErr : Err → Err
  | Err.noRows => Err.adNotFound
  | e => e

/-- `service.PaginationResult`; the `int` fields `nextPage` and
`prevPage` carry 0 when unassigned, which `json:"...,omitempty"` omits
from the serialized response. -/
structure PaginationResult where
  ads : List Ad
  currentPage : Int
  nextPage : Int
  prevPage : Int
  totalPages : Int
deriving DecidableEq, Repr

/-- The pagination arithmetic of `service.GetAllAds`; Go `/` on `int`
truncates toward zero, which is `Int.tdiv`. -/
def computePagination (totalCount limit offset : Int) : PaginationResult :=
  let totalPages := Int.tdiv (totalCount + limit - 1) limit
  let currentPage := Int.tdiv offset limit + 1
  let nextPage := if currentPage < totalPages then currentPage + 1 else 0
  let prevPage := if currentPage > 1 then currentPage - 1 else 0
  ⟨[], currentPage, nextPage, prevPage, totalPages⟩

/-- Fault record for one service `GetAllAds` call. -/
structure ListSvcFaults where
  list : Repository.ListFaults
  countFails : Bool
deriving DecidableEq, Repr

/-- Service `GetAllAds`: list via the repository, count, then compute the
pagination metadata. -/
def GetAllAds (c : CacheState) (db : DBState) (f : ListSvcFaults)
    (limit offset : Int) (sortBy order : String) : Outcome PaginationResult :=
  let r := Repository.GetAllAds c db f.list limit offset sortBy order
  match r.res with
  | Except.error e => ⟨Except.error e, r.cache, r.db, r.events⟩
  | Except.ok ads =>
    let cnt := Repository.CountAds r.db f.countFails
    match cnt.1 with
    | Except.error e => ⟨Except.error e, r.cache, r.db, r.events ++ cnt.2⟩
    | Except.ok totalCount =>
      let p := computePagination totalCount limit offset
      ⟨Except.ok ⟨ads, p.currentPage, p.nextPage, p.prevPage, p.totalPages⟩,
       r.cache, r.db, r.events ++ cnt.2⟩

/-- Service `GetAdByID`: ids `≤ 0` are rejected with `ErrInvalidID`
before anything else runs. -/
def GetAdByID (c : CacheState) (db : DBState) (f : Repository.GetByIdFaults) (id : Int) : Outcome Ad :=
  if id ≤ 0 then ⟨Except.error Err.invalidID, c, db, []⟩
  else
    let r := Repository.GetAdByID c db f id
    match r.res with
    | Except.error e => ⟨Except.error (mapRepoErr e), r.cache, r.db, r.events⟩
    | Except.ok ad => ⟨Except.ok ad, r.cache, r.db, r.events⟩

/-- Service `UpdateAd`: `ad.ID ≤ 0` is rejected with `ErrInvalidID`
before anything else runs. -/
def UpdateAd (c : CacheState) (db : DBState) (f : Repository.UpdateFaults) (ad : Ad) : Outcome Ad :=
  if ad.id ≤ 0 then ⟨Except.error Err.invalidID, c, db, []⟩
  else
    let r := Repository.UpdateAd c db f ad
    match r.res with
    | Except.error e => ⟨Except.error (mapRepoErr e), r.cache, r.db, r.events⟩
    | Except.ok ad => ⟨Except.ok ad, r.cache, r.db, r.events⟩

/-- Service `DeleteAd`: ids `≤ 0` are rejected with `ErrInvalidID`
before anything else runs. -/
def DeleteAd (c : CacheState) (db : DBState) (f : Repository.DeleteFaults) (id : Int) : Outcome Unit :=
  if id ≤ 0 then ⟨Except.error Err.invalidID, c, db, []⟩
  else
    let r := Repository.DeleteAd c db f id
    match r.res with
    | Except.error e => ⟨Except.error (mapRepoErr e), r.cache, r.db, r.events⟩
    | Except.ok u => ⟨Except.ok u, r.cache, r.db, r.events⟩

end Service

namespace Handler

/-- Embedding of `strconv.Atoi`: an optional sign followed by at least one
digit (overflow of the 64-bit range is not modelled). -/
def atoi (s : String) : Option Int :=
  let core : List Char → Option Nat := fun ds =>
    if ds.isEmpty then none
    else if ds.all Char.isDigit then
      some (ds.foldl (fun n ch => n * 10 + (ch.toNat - 48)) 0)
    else none
  match s.toList with
  | '-' :: rest => (core rest).map (fun n => -(n : Int))
  | '+' :: rest => (core rest).map (fun n => (n : Int))
  | l => (core l).map (fun n => (n : Int))

/-- Handler parsing of the `limit` query parameter: an absent, unparseable
or non-positive value becomes the default 10. -/
def parsedLimit (raw : String) : Int :=
  match atoi raw with
  | none => 10
  | some n => if n ≤ 0 then 10 else n

/-- Handler parsing of the `page` query parameter: an absent, unparseable
or non-positive value becomes the default 1. -/
def parsedPage (raw : String) : Int :=
  match atoi raw with
  | none => 1
  | some n => if n ≤ 0 then 1 else n

/-- Handler parsing of the `sortBy` query parameter. -/
def parsedSortBy (raw : String) : String := if raw == "" then "created_at" else raw

/-- Handler parsing of the `order` query parameter. -/
def parsedOrder (raw : String) : String := if raw == "" then "ASC" else raw

/-- The four values `handler.GetAllAds` passes to the service, computed
from the raw query parameters; `offset = (page-1)*limit`. -/
structure ListParams where
  limit : Int
  offset : Int
  sortBy : String
  order : String
deriving DecidableEq, Repr

/-- Parameter extraction of `handler.GetAllAds`; no combination of raw
parameters is rejected — invalid values are replaced by defaults. -/
def listParams (rawLimit rawPage rawSortBy rawOrder : String) : ListParams :=
  let limit := parsedLimit rawLimit
  let page := parsedPage rawPage
  ⟨limit, (page - 1) * limit, parsedSortBy rawSortBy, parsedOrder rawOrder⟩

/-- Handler `GetAllAds`: parse the query parameters and call the
service. -/
def GetAllAds (c : CacheState) (db : DBState) (f : Service.ListSvcFaults)
    (rawLimit rawPage rawSortBy rawOrder : String) : Outcome Service.PaginationResult :=
  let p := listParams rawLimit rawPage rawSortBy rawOrder
  Service.GetAllAds c db f p.limit p.offset p.sortBy p.order

end Handler

/-! Helper lemmas about the cache and store primitives. -/

theorem cacheGetVal_delete_self (c : CacheState) (k : String) :
    cacheGetVal (cacheDeleteVal c k) k = none := by
  have h : (c.filter (fun p => p.1 != k)).find? (fun p => p.1 == k) = none := by
    rw [List.find?_eq_none]
    intro x hx
    simp only [List.mem_filter] at hx
    simpa using hx.2
  simp [cacheGetVal, cacheDeleteVal, h]

theorem cacheGetVal_set_self (c : CacheState) (k : String) (v : CacheVal) :
    cacheGetVal (cacheSetVal c k v) k = some v := by
  simp [cacheGetVal, cacheSetVal, List.find?_cons]

theorem find?_map_update (rows : List Ad) (ad : Ad) (now : Nat) (old : Ad)
    (h : rows.find? (fun a => a.id == ad.id) = some old) :
    (rows.map (fun a => if a.id = ad.id then applyUpdate a ad now else a)).find?
        (fun a => a.id == ad.id) = some (applyUpdate old ad now) := by
  induction rows with
  | nil => simp at h
  | cons b t ih =>
    cases hb : (b.id == ad.id) with
    | true =>
      simp only [List.find?_cons, hb] at h
      have hbo : b = old := by simpa using h
      subst hbo
      have hb' : b.id = ad.id := by simpa using hb
      simp [List.find?_cons, applyUpdate, hb']
    | false =>
      simp only [List.find?_cons, hb] at h
      rw [List.map_cons]
      rw [show (if b.id = ad.id then applyUpdate b ad now else b) = b from by
        exact if_neg (by simpa using hb)]
      rw [List.find?_cons_of_neg _ (by simp [hb])]
      exact ih h

theorem dbFind_after_delete (rows : List Ad) (id : Int) :
    (rows.filter (fun a => a.id != id)).find? (fun a => a.id == id) = none := by
  rw [List.find?_eq_none]
  intro x hx
  simp only [List.mem_filter] at hx
  simpa using hx.2

theorem getAdByID_fresh_or_storeFailure (cc : CacheState) (db : DBState)
    (g : Repository.GetByIdFaults) (id : Int) (u : Ad)
    (hcache : cacheGetVal cc (adKey id) = none
        ∨ cacheGetVal cc (adKey id) = some (CacheVal.adJSON u))
    (hdb : dbFind db id = some u) :
    (Repository.GetAdByID cc db g id).res = Except.ok u
      ∨ (Repository.GetAdByID cc db g id).res = Except.error Err.storeFailure := by
  cases hg : g.cacheGetFails with
  | true =>
    cases hs : g.storeReadFails with
    | true => right; simp [Repository.GetAdByID, hg, hs]
    | false =>
      left
      cases hm : g.marshalFails <;> simp [Repository.GetAdByID, hg, hs, hdb, hm]
  | false =>
    rcases hcache with hc | hc
    · cases hs : g.storeReadFails with
      | true => right; simp [Repository.GetAdByID, hg, hs, hc]
      | false =>
        left
        cases hm : g.marshalFails <;> simp [Repository.GetAdByID, hg, hs, hc, hdb, hm]
    · left; simp [Repository.GetAdByID, hg, hc, unmarshalAd]

theorem getAdByID_notfound_or_storeFailure (cc : CacheState) (db : DBState)
    (g : Repository.GetByIdFaults) (id : Int)
    (hcache : cacheGetVal cc (adKey id) = none)
    (hdb : dbFind db id = none) :
    (Repository.GetAdByID cc db g id).res = Except.error Err.noRows
      ∨ (Repository.GetAdByID cc db g id).res = Except.error Err.storeFailure := by
  cases hg : g.cacheGetFails <;> cases hs : g.storeReadFails <;>
    simp [Repository.GetAdByID, hg, hs, hcache, hdb]

theorem getAllAds_preserves_db (c : CacheState) (db : DBState) (f : Repository.ListFaults)
    (limit offset : Int) (sortBy order : String) :
    (Repository.GetAllAds c db f limit offset sortBy order).db = db := by
  simp only [Repository.GetAllAds]
  split
  · rfl
  · split
    · rfl
    · split
      · split
        · rfl
        · split <;> rfl
      · rfl

/-! Concrete sample states used by the witnesses. -/

/-- A stored row, as after the end-to-end POST example of the spec. -/
def sampleOld : Ad := ⟨1, "Bike", "Used", 50, 3, 3, true⟩

/-- An update request for that row (price lowered to 40). -/
def sampleReq : Ad := ⟨1, "Bike", "Used", 40, 0, 0, true⟩

/-- The store with the single row `sampleOld` and clock 7. -/
def sampleDB : DBState := ⟨[sampleOld], 7⟩

/-- The row after applying `sampleReq` at clock 7. -/
def sampleUpdated : Ad := ⟨1, "Bike", "Used", 40, 3, 7, true⟩

/-- A cache still holding the pre-update row under `"ad:1"`. -/
def staleCache : CacheState := [(adKey 1, CacheVal.adJSON sampleOld)]

/-- An empty store at clock 7. -/
def emptyDB : DBState := ⟨[], 7⟩

/-- An ad carrying an invalid (negative) id. -/
def negAd : Ad := ⟨-1, "Bike", "Used", 50, 3, 3, true⟩

def noGetFaults : Repository.GetByIdFaults := ⟨false, false, false, false⟩

def noListFaults : Repository.ListFaults := ⟨false, false, false, false⟩

def noUpdateFaults : Repository.UpdateFaults := ⟨false, false, false, false, false⟩

/-- Update faults where only the post-update re-read fails. -/
def rereadFailFaults : Repository.UpdateFaults := ⟨false, false, true, false, false⟩

def noDeleteFaults : Repository.DeleteFaults := ⟨false, false⟩

/-! Claims. -/

/-- Claim C8: for every id ≤ 0, the service operations GetAdByID,
UpdateAd (with ad.ID = id) and DeleteAd return ErrInvalidID and perform
no store call and no cache call — the outcome carries the unchanged cache
and store states and an empty external-call trace. -/
theorem service_rejects_nonpositive_ids (c : CacheState) (db : DBState)
    (f : Repository.GetByIdFaults) (fu : Repository.UpdateFaults) (fd : Repository.DeleteFaults)
    (id : Int) (ad : Ad) (hid : id ≤ 0) (had : ad.id ≤ 0) :
    Service.GetAdByID c db f id = ⟨Except.error Err.invalidID, c, db, []⟩
      ∧ Service.UpdateAd c db fu ad = ⟨Except.error Err.invalidID, c, db, []⟩
      ∧ Service.DeleteAd c db fd id = ⟨Except.error Err.invalidID, c, db, []⟩ := by
  refine ⟨?_, ?_, ?_⟩
  · simp [Service.GetAdByID, hid]
  · simp [Service.UpdateAd, had]
  · simp [Service.DeleteAd, hid]

theorem service_rejects_nonpositive_ids_witness :
    (0 : Int) ≤ 0 ∧ negAd.id ≤ 0
      ∧ Service.GetAdByID staleCache sampleDB noGetFaults 0
          = ⟨Except.error Err.invalidID, staleCache, sampleDB, []⟩
      ∧ Service.UpdateAd staleCache sampleDB noUpdateFaults negAd
          = ⟨Except.error Err.invalidID, staleCache, sampleDB, []⟩
      ∧ Service.DeleteAd staleCache sampleDB noDeleteFaults 0
          = ⟨Except.error Err.invalidID, staleCache, sampleDB, []⟩ :=
  ⟨by decide, by decide,
   service_rejects_nonpositive_ids staleCache sampleDB noGetFaults noUpdateFaults
     noDeleteFaults 0 negAd (by decide) (by decide)⟩

/-- Claim C4: when the store update in UpdateAd reports zero rows
affected, UpdateAd returns sql.ErrNoRows and performs no cache operation
at all: the cache is unchanged and the only external call in the trace is
the UPDATE itself. -/
theorem updateAd_zero_rows_touches_no_cache (c : CacheState) (db : DBState)
    (f : Repository.UpdateFaults) (ad : Ad)
    (hfind : dbFind db ad.id = none)
    (hexec : f.execFails = false) (hra : f.rowsAffectedFails = false) :
    (Repository.UpdateAd c db f ad).res = Except.error Err.noRows
      ∧ (Repository.UpdateAd c db f ad).cache = c
      ∧ (Repository.UpdateAd c db f ad).db = db
      ∧ (Repository.UpdateAd c db f ad).events = [Event.storeQuery updateQuery] := by
  refine ⟨?_, ?_, ?_, ?_⟩ <;>
    simp [Repository.UpdateAd, dbUpdateExec, hfind, hexec, hra]

theorem updateAd_zero_rows_touches_no_cache_witness :
    dbFind emptyDB sampleReq.id = none
      ∧ (Repository.UpdateAd staleCache emptyDB noUpdateFaults sampleReq).res
          = Except.error Err.noRows
      ∧ (Repository.UpdateAd staleCache emptyDB noUpdateFaults sampleReq).cache = staleCache
      ∧ (Repository.UpdateAd staleCache emptyDB noUpdateFaults sampleReq).db = emptyDB
      ∧ (Repository.UpdateAd staleCache emptyDB noUpdateFaults sampleReq).events
          = [Event.storeQuery updateQuery] :=
  ⟨by decide,
   updateAd_zero_rows_touches_no_cache staleCache emptyDB noUpdateFaults sampleReq
     (by decide) rfl rfl⟩

/-- Claim C10: when the UPDATE affects a row but the follow-up re-read
fails, UpdateAd returns an error even though the store already holds the
updated row and the `"ad:<id>"` cache key has already been deleted —
state is not unchanged on this error. -/
theorem updateAd_partial_effect_on_reread_failure (c : CacheState) (db : DBState)
    (f : Repository.UpdateFaults) (ad old : Ad)
    (hfind : dbFind db ad.id = some old)
    (hexec : f.execFails = false) (hra : f.rowsAffectedFails = false)
    (hre : f.rereadFails = true) :
    (Repository.UpdateAd c db f ad).res = Except.error Err.storeFailure
      ∧ dbFind (Repository.UpdateAd c db f ad).db ad.id = some (applyUpdate old ad db.now)
      ∧ cacheGetVal (Repository.UpdateAd c db f ad).cache (adKey ad.id) = none
      ∧ Event.cacheDel (adKey ad.id) ∈ (Repository.UpdateAd c db f ad).events := by
  have h1 := find?_map_update db.rows ad db.now old hfind
  have hupd : dbUpdateExec db ad
      = (⟨db.rows.map (fun a => if a.id = ad.id then applyUpdate a ad db.now else a), db.now⟩, 1) := by
    unfold dbUpdateExec
    rw [hfind]
  refine ⟨?_, ?_, ?_, ?_⟩
  · simp [Repository.UpdateAd, hupd, hexec, hra, hre]
  · simp [Repository.UpdateAd, hupd, hexec, hra, hre, dbFind]
    simpa using h1
  · simp [Repository.UpdateAd, hupd, hexec, hra, hre, cacheGetVal_delete_self]
  · simp [Repository.UpdateAd, hupd, hexec, hra, hre]

theorem updateAd_partial_effect_on_reread_failure_witness :
    dbFind sampleDB sampleReq.id = some sampleOld
      ∧ (Repository.UpdateAd staleCache sampleDB rereadFailFaults sampleReq).res
          = Except.error Err.storeFailure
      ∧ dbFind (Repository.UpdateAd staleCache sampleDB rereadFailFaults sampleReq).db
          sampleReq.id = some (applyUpdate sampleOld sampleReq sampleDB.now)
      ∧ cacheGetVal (Repository.UpdateAd staleCache sampleDB rereadFailFaults sampleReq).cache
          (adKey sampleReq.id) = none
      ∧ Event.cacheDel (adKey sampleReq.id)
          ∈ (Repository.UpdateAd staleCache sampleDB rereadFailFaults sampleReq).events :=
  ⟨by decide,
   updateAd_partial_effect_on_reread_failure staleCache sampleDB rereadFailFaults sampleReq
     sampleOld (by decide) rfl rfl rfl⟩

/-- Claim C1: once the store update in UpdateAd affects a row, the
repository deletes the `"ad:<id>"` cache key and then best-effort
repopulates it with the freshly re-read updated row: afterwards the cache
key is either absent or holds exactly the updated row, the store holds the
updated row, and the next GetAdByID — under any fault pattern — returns
either the updated row or an infrastructure error, never a pre-update
stale cached value. -/
theorem updateAd_invalidates_no_stale_read (c : CacheState) (db : DBState)
    (f : Repository.UpdateFaults) (g : Repository.GetByIdFaults) (ad old : Ad)
    (hfind : dbFind db ad.id = some old)
    (hexec : f.execFails = false) (hra : f.rowsAffectedFails = false) :
    (cacheGetVal (Repository.UpdateAd c db f ad).cache (adKey ad.id) = none
        ∨ cacheGetVal (Repository.UpdateAd c db f ad).cache (adKey ad.id)
            = some (CacheVal.adJSON (applyUpdate old ad db.now)))
      ∧ dbFind (Repository.UpdateAd c db f ad).db ad.id = some (applyUpdate old ad db.now)
      ∧ ((Repository.GetAdByID (Repository.UpdateAd c db f ad).cache
              (Repository.UpdateAd c db f ad).db g ad.id).res
            = Except.ok (applyUpdate old ad db.now)
          ∨ (Repository.GetAdByID (Repository.UpdateAd c db f ad).cache
              (Repository.UpdateAd c db f ad).db g ad.id).res
            = Except.error Err.storeFailure) := by
  have h1 := find?_map_update db.rows ad db.now old hfind
  have hupd : dbUpdateExec db ad
      = (⟨db.rows.map (fun a => if a.id = ad.id then applyUpdate a ad db.now else a), db.now⟩, 1) := by
    unfold dbUpdateExec
    rw [hfind]
  have hdbmid : dbFind
      (⟨db.rows.map (fun a => if a.id = ad.id then applyUpdate a ad db.now else a), db.now⟩ : DBState)
      ad.id = some (applyUpdate old ad db.now) := h1
  have hdb1 : dbFind (Repository.UpdateAd c db f ad).db ad.id
      = some (applyUpdate old ad db.now) := by
    cases hre : f.rereadFails <;> cases hm : f.marshalFails <;> cases hs : f.cacheSetFails <;>
      simp [Repository.UpdateAd, hupd, hexec, hra, hre, hm, hs, hdbmid]
  have hcache : cacheGetVal (Repository.UpdateAd c db f ad).cache (adKey ad.id) = none
      ∨ cacheGetVal (Repository.UpdateAd c db f ad).cache (adKey ad.id)
          = some (CacheVal.adJSON (applyUpdate old ad db.now)) := by
    cases hre : f.rereadFails with
    | true =>
      left
      simp [Repository.UpdateAd, hupd, hexec, hra, hre, cacheGetVal_delete_self]
    | false =>
      cases hm : f.marshalFails with
      | true =>
        left
        simp [Repository.UpdateAd, hupd, hexec, hra, hre, hm, hdbmid, cacheGetVal_delete_self]
      | false =>
        cases hs : f.cacheSetFails with
        | true =>
          left
          simp [Repository.UpdateAd, hupd, hexec, hra, hre, hm, hs, hdbmid, cacheGetVal_delete_self]
        | false =>
          right
          simp [Repository.UpdateAd, hupd, hexec, hra, hre, hm, hs, hdbmid, cacheGetVal_set_self]
  exact ⟨hcache, hdb1,
    getAdByID_fresh_or_storeFailure (Repository.UpdateAd c db f ad).cache
      (Repository.UpdateAd c db f ad).db g ad.id (applyUpdate old ad db.now) hcache hdb1⟩

theorem updateAd_invalidates_no_stale_read_witness :
    dbFind sampleDB sampleReq.id = some sampleOld
      ∧ ((cacheGetVal (Repository.UpdateAd staleCache sampleDB noUpdateFaults sampleReq).cache
              (adKey sampleReq.id) = none
          ∨ cacheGetVal (Repository.UpdateAd staleCache sampleDB noUpdateFaults sampleReq).cache
              (adKey sampleReq.id)
              = some (CacheVal.adJSON (applyUpdate sampleOld sampleReq sampleDB.now)))
        ∧ dbFind (Repository.UpdateAd staleCache sampleDB noUpdateFaults sampleReq).db
            sampleReq.id = some (applyUpdate sampleOld sampleReq sampleDB.now)
        ∧ ((Repository.GetAdByID (Repository.UpdateAd staleCache sampleDB noUpdateFaults sampleReq).cache
                (Repository.UpdateAd staleCache sampleDB noUpdateFaults sampleReq).db
                noGetFaults sampleReq.id).res
              = Except.ok (applyUpdate sampleOld sampleReq sampleDB.now)
            ∨ (Repository.GetAdByID (Repository.UpdateAd staleCache sampleDB noUpdateFaults sampleReq).cache
                (Repository.UpdateAd staleCache sampleDB noUpdateFaults sampleReq).db
                noGetFaults sampleReq.id).res
              = Except.error Err.storeFailure)) :=
  ⟨by decide,
   updateAd_invalidates_no_stale_read staleCache sampleDB noUpdateFaults noGetFaults
     sampleReq sampleOld (by decide) rfl rfl⟩

/-- Claim C5: when the store delete in DeleteAd affects a row, the
`"ad:<id>"` cache key is deleted and a subsequent service GetAdByID
returns ErrAdNotFound (or an infrastructure error when the store read
itself fails) — never a stale cached value; when the store delete affects
zero rows, DeleteAd returns sql.ErrNoRows with no cache interaction. -/
theorem deleteAd_then_get_not_found (c : CacheState) (db : DBState)
    (fd : Repository.DeleteFaults) (id : Int) :
    (∀ a : Ad, 0 < id → dbFind db id = some a → fd.execFails = false →
        fd.rowsAffectedFails = false →
        (Repository.DeleteAd c db fd id).res = Except.ok ()
          ∧ cacheGetVal (Repository.DeleteAd c db fd id).cache (adKey id) = none
          ∧ dbFind (Repository.DeleteAd c db fd id).db id = none
          ∧ ∀ g : Repository.GetByIdFaults,
              (Service.GetAdByID (Repository.DeleteAd c db fd id).cache
                  (Repository.DeleteAd c db fd id).db g id).res = Except.error Err.adNotFound
                ∨ (Service.GetAdByID (Repository.DeleteAd c db fd id).cache
                    (Repository.DeleteAd c db fd id).db g id).res = Except.error Err.storeFailure)
      ∧ (dbFind db id = none → fd.execFails = false → fd.rowsAffectedFails = false →
          (Repository.DeleteAd c db fd id).res = Except.error Err.noRows
            ∧ (Repository.DeleteAd c db fd id).cache = c
            ∧ (Repository.DeleteAd c db fd id).events = [Event.storeQuery deleteQuery]) := by
  constructor
  · intro a hid hfind hexec hra
    have hdel : dbDeleteExec db id
        = (⟨db.rows.filter (fun a => a.id != id), db.now⟩, 1) := by
      unfold dbDeleteExec
      rw [hfind]
    have hres : (Repository.DeleteAd c db fd id).res = Except.ok () := by
      simp [Repository.DeleteAd, hdel, hexec, hra]
    have hcache : cacheGetVal (Repository.DeleteAd c db fd id).cache (adKey id) = none := by
      simp [Repository.DeleteAd, hdel, hexec, hra, cacheGetVal_delete_self]
    have hdbn : dbFind (Repository.DeleteAd c db fd id).db id = none := by
      have hgone : dbFind (⟨db.rows.filter (fun a => a.id != id), db.now⟩ : DBState) id = none :=
        dbFind_after_delete db.rows id
      simp [Repository.DeleteAd, hdel, hexec, hra, hgone]
    refine ⟨hres, hcache, hdbn, ?_⟩
    intro g
    have hpos : ¬ id ≤ 0 := by omega
    rcases getAdByID_notfound_or_storeFailure (Repository.DeleteAd c db fd id).cache
        (Repository.DeleteAd c db fd id).db g id hcache hdbn with h | h
    · left
      simp [Service.GetAdByID, hpos, h, Service.mapRepoErr]
    · right
      simp [Service.GetAdByID, hpos, h, Service.mapRepoErr]
  · intro hfind hexec hra
    have hdel : dbDeleteExec db id = (db, 0) := by
      unfold dbDeleteExec
      rw [hfind]
    refine ⟨?_, ?_, ?_⟩ <;> simp [Repository.DeleteAd, hdel, hexec, hra]

theorem deleteAd_then_get_not_found_witness :
    ((0 : Int) < 1 ∧ dbFind sampleDB 1 = some sampleOld
      ∧ ((Repository.DeleteAd staleCache sampleDB noDeleteFaults 1).res = Except.ok ()
        ∧ cacheGetVal (Repository.DeleteAd staleCache sampleDB noDeleteFaults 1).cache (adKey 1) = none
        ∧ dbFind (Repository.DeleteAd staleCache sampleDB noDeleteFaults 1).db 1 = none
        ∧ ∀ g : Repository.GetByIdFaults,
            (Service.GetAdByID (Repository.DeleteAd staleCache sampleDB noDeleteFaults 1).cache
                (Repository.DeleteAd staleCache sampleDB noDeleteFaults 1).db g 1).res
              = Except.error Err.adNotFound
              ∨ (Service.GetAdByID (Repository.DeleteAd staleCache sampleDB noDeleteFaults 1).cache
                  (Repository.DeleteAd staleCache sampleDB noDeleteFaults 1).db g 1).res
                = Except.error Err.storeFailure))
      ∧ (dbFind emptyDB 1 = none
        ∧ ((Repository.DeleteAd staleCache emptyDB noDeleteFaults 1).res = Except.error Err.noRows
          ∧ (Repository.DeleteAd staleCache emptyDB noDeleteFaults 1).cache = staleCache
          ∧ (Repository.DeleteAd staleCache emptyDB noDeleteFaults 1).events
              = [Event.storeQuery deleteQuery])) :=
  ⟨⟨by decide, by decide,
    (deleteAd_then_get_not_found staleCache sampleDB noDeleteFaults 1).1 sampleOld
      (by decide) (by decide) rfl rfl⟩,
   ⟨by decide,
    (deleteAd_then_get_not_found staleCache emptyDB noDeleteFaults 1).2 (by decide) rfl rfl⟩⟩

/-- Claim C2: GetAllAds touches the `"ads:default_page"` list cache
exactly for the tuple (limit=10, offset=0, sortBy="created_at",
order="ASC"): for that tuple the cache read always happens, and for every
other tuple the trace contains no cache operation at all — only the direct
store query — and the cache state is unchanged. -/
theorem getAllAds_cache_iff_default (c : CacheState) (db : DBState)
    (f : Repository.ListFaults) (limit offset : Int) (sortBy order : String) :
    (isDefaultPagination limit offset sortBy order = true →
        Event.cacheGet defaultPageKey
          ∈ (Repository.GetAllAds c db f limit offset sortBy order).events)
      ∧ (isDefaultPagination limit offset sortBy order = false →
          (Repository.GetAllAds c db f limit offset sortBy order).events
              = [Event.storeQuery (buildListQuery sortBy order)]
            ∧ (Repository.GetAllAds c db f limit offset sortBy order).cache = c) := by
  constructor
  · intro hdef
    cases hg : f.cacheGetFails with
    | true =>
      cases hq : f.queryFails <;> cases hm : f.marshalFails <;> cases hs : f.cacheSetFails <;>
        simp [Repository.GetAllAds, hdef, hg, hq, hm, hs]
    | false =>
      rcases hcv : (cacheGetVal c defaultPageKey).bind unmarshalAdList with _ | ads
      · cases hq : f.queryFails <;> cases hm : f.marshalFails <;> cases hs : f.cacheSetFails <;>
          simp [Repository.GetAllAds, hdef, hg, hq, hm, hs, hcv]
      · simp [Repository.GetAllAds, hdef, hg, hcv]
  · intro hdef
    cases hq : f.queryFails <;>
      constructor <;> simp [Repository.GetAllAds, hdef, hq]

theorem getAllAds_cache_iff_default_witness :
    (isDefaultPagination 10 0 "created_at" "ASC" = true
      ∧ Event.cacheGet defaultPageKey
          ∈ (Repository.GetAllAds staleCache sampleDB noListFaults 10 0 "created_at" "ASC").events)
      ∧ (isDefaultPagination 5 0 "price" "DESC" = false
        ∧ (Repository.GetAllAds staleCache sampleDB noListFaults 5 0 "price" "DESC").events
            = [Event.storeQuery (buildListQuery "price" "DESC")]
        ∧ (Repository.GetAllAds staleCache sampleDB noListFaults 5 0 "price" "DESC").cache
            = staleCache) :=
  ⟨⟨by decide,
    (getAllAds_cache_iff_default staleCache sampleDB noListFaults 10 0 "created_at" "ASC").1
      (by decide)⟩,
   ⟨by decide,
    ((getAllAds_cache_iff_default staleCache sampleDB noListFaults 5 0 "price" "DESC").2
      (by decide)).1,
    ((getAllAds_cache_iff_default staleCache sampleDB noListFaults 5 0 "price" "DESC").2
      (by decide)).2⟩⟩

/-- Claim C6: a cache failure is never surfaced as an application error
on the read paths.  For GetAdByID: whenever the store holds the row and
the store read does not fail, the read returns ok under every cache fault
pattern, and when the cache get fails the read falls through and returns
exactly the store row.  For default-page GetAllAds: whenever the store
query does not fail the read returns ok under every cache fault pattern,
and when the cache get fails it returns exactly the store rows. -/
theorem reads_survive_cache_failures (c : CacheState) (db : DBState)
    (f : Repository.GetByIdFaults) (fl : Repository.ListFaults) (id : Int) (a : Ad) :
    (dbFind db id = some a → f.storeReadFails = false →
        (∃ x, (Repository.GetAdByID c db f id).res = Except.ok x)
          ∧ (f.cacheGetFails = true → (Repository.GetAdByID c db f id).res = Except.ok a))
      ∧ (fl.queryFails = false →
          (∃ l, (Repository.GetAllAds c db fl 10 0 "created_at" "ASC").res = Except.ok l)
            ∧ (fl.cacheGetFails = true →
                (Repository.GetAllAds c db fl 10 0 "created_at" "ASC").res
                  = Except.ok (runListQuery db 10 0 "created_at" "ASC"))) := by
  constructor
  · intro hdb hs
    constructor
    · cases hg : f.cacheGetFails with
      | true =>
        cases hm : f.marshalFails <;>
          exact ⟨a, by simp [Repository.GetAdByID, hg, hs, hm, hdb]⟩
      | false =>
        rcases hcv : (cacheGetVal c (adKey id)).bind unmarshalAd with _ | x
        · cases hm : f.marshalFails <;>
            exact ⟨a, by simp [Repository.GetAdByID, hg, hs, hm, hcv, hdb]⟩
        · exact ⟨x, by simp [Repository.GetAdByID, hg, hcv]⟩
    · intro hg
      cases hm : f.marshalFails <;> simp [Repository.GetAdByID, hg, hs, hm, hdb]
  · intro hq
    constructor
    · cases hg : fl.cacheGetFails with
      | true =>
        cases hm : fl.marshalFails <;> cases hset : fl.cacheSetFails <;>
          exact ⟨runListQuery db 10 0 "created_at" "ASC",
            by simp [Repository.GetAllAds, isDefaultPagination, hg, hq, hm, hset]⟩
      | false =>
        rcases hcv : (cacheGetVal c defaultPageKey).bind unmarshalAdList with _ | ads
        · cases hm : fl.marshalFails <;> cases hset : fl.cacheSetFails <;>
            exact ⟨runListQuery db 10 0 "created_at" "ASC",
              by simp [Repository.GetAllAds, isDefaultPagination, hg, hq, hm, hset, hcv]⟩
        · exact ⟨ads, by simp [Repository.GetAllAds, isDefaultPagination, hg, hcv]⟩
    · intro hg
      cases hm : fl.marshalFails <;> cases hset : fl.cacheSetFails <;>
        simp [Repository.GetAllAds, isDefaultPagination, hg, hq, hm, hset]

theorem reads_survive_cache_failures_witness :
    (dbFind sampleDB 1 = some sampleOld
      ∧ ((∃ x, (Repository.GetAdByID [(adKey 1, CacheVal.raw "garbage")] sampleDB
            ⟨false, false, true, true⟩ 1).res = Except.ok x)
        ∧ ((⟨false, false, true, true⟩ : Repository.GetByIdFaults).cacheGetFails = true →
            (Repository.GetAdByID [(adKey 1, CacheVal.raw "garbage")] sampleDB
              ⟨false, false, true, true⟩ 1).res = Except.ok sampleOld)))
      ∧ ((∃ l, (Repository.GetAllAds staleCache sampleDB ⟨true, false, true, true⟩
            10 0 "created_at" "ASC").res = Except.ok l)
        ∧ ((⟨true, false, true, true⟩ : Repository.ListFaults).cacheGetFails = true →
            (Repository.GetAllAds staleCache sampleDB ⟨true, false, true, true⟩
              10 0 "created_at" "ASC").res
              = Except.ok (runListQuery sampleDB 10 0 "created_at" "ASC"))) :=
  ⟨⟨by decide,
    (reads_survive_cache_failures [(adKey 1, CacheVal.raw "garbage")] sampleDB
        ⟨false, false, true, true⟩ ⟨true, false, true, true⟩ 1 sampleOld).1
      (by decide) rfl⟩,
   (reads_survive_cache_failures [(adKey 1, CacheVal.raw "garbage")] sampleDB
       ⟨false, false, true, true⟩ ⟨true, false, true, true⟩ 1 sampleOld).2 rfl⟩

/-- Modelled from the spec: the fixed allow-list the spec requires for
the interpolated sort column, missing from the code — `GetAllAds` in
`internal/repository/repository.go` interpolates `sortBy` and `order`
into the query text without any such check.  Spec-side definition, stated
for comparison with `buildListQuery`. -/
def sortByAllowList : List String := ["id", "title", "price", "created_at", "updated_at"]

/-- Modelled from the spec: the allowed sort directions.  Spec-side
definition, stated for comparison with `buildListQuery`. -/
def orderAllowList : List String := ["ASC", "DESC"]

/-- Claim C3: refuted by the code — the repository builds the list query
by interpolating `sortBy` and `order` verbatim with no allow-list check,
so a value outside the allow-lists does reach the executed query text.
At the concrete input sortBy = "title; DROP TABLE ads" (not in the
allow-list), the built query text contains the injected value and
GetAllAds sends exactly that text to the store. -/
theorem sortBy_interpolated_without_allowlist :
    "title; DROP TABLE ads" ∉ sortByAllowList
      ∧ buildListQuery "title; DROP TABLE ads" "ASC"
          = "\n\t\tSELECT id, title, description, price, created_at, updated_at, active\n\t\tFROM ads\n\t\tORDER BY title; DROP TABLE ads ASC\n\t\tLIMIT ? OFFSET ?"
      ∧ (Repository.GetAllAds staleCache sampleDB noListFaults 5 0
            "title; DROP TABLE ads" "ASC").events
          = [Event.storeQuery (buildListQuery "title; DROP TABLE ads" "ASC")] :=
  ⟨by decide, by decide, by decide⟩

/-- Claim C9 counterexample: a request with raw limit "0" is not rejected
as invalid input — the handler substitutes the default limit 10 and the
request completes normally, returning ok rather than ErrInvalidID. -/
theorem limit_zero_not_rejected :
    Handler.parsedLimit "0" = 10
      ∧ (Handler.GetAllAds [] sampleDB ⟨noListFaults, false⟩ "0" "" "" "").res
          ≠ Except.error Err.invalidID
      ∧ (Handler.GetAllAds [] sampleDB ⟨noListFaults, false⟩ "0" "" "" "").res
          = Except.ok ⟨[sampleOld], 1, 0, 0, 1⟩ :=
  ⟨by decide, by decide, by decide⟩

/-- Claim C9 (amended): the handler never passes a non-positive limit to
the service — an absent, unparseable or non-positive raw limit (including
"0") is replaced by the default 10 rather than rejected with an
invalid-input error, so the pagination division performed by the service
on behalf of any request always has a positive divisor. -/
theorem handler_limit_always_positive (rawLimit rawPage rawSortBy rawOrder : String) :
    0 < (Handler.listParams rawLimit rawPage rawSortBy rawOrder).limit
      ∧ ∀ (c : CacheState) (db : DBState) (f : Service.ListSvcFaults),
          Handler.GetAllAds c db f rawLimit rawPage rawSortBy rawOrder
            = Service.GetAllAds c db f
                (Handler.listParams rawLimit rawPage rawSortBy rawOrder).limit
                (Handler.listParams rawLimit rawPage rawSortBy rawOrder).offset
                (Handler.listParams rawLimit rawPage rawSortBy rawOrder).sortBy
                (Handler.listParams rawLimit rawPage rawSortBy rawOrder).order := by
  constructor
  · have h : 0 < Handler.parsedLimit rawLimit := by
      unfold Handler.parsedLimit
      rcases Handler.atoi rawLimit with _ | n
      · dsimp only
        omega
      · dsimp only
        split <;> omega
    simpa [Handler.listParams] using h
  · intro c db f
    rfl

/-- Claim C7: for every totalCount ≥ 0, limit > 0 and offset ≥ 0 the
pagination metadata computed by the service satisfies totalPages =
ceil(totalCount/limit) and currentPage = floor(offset/limit) + 1, with
nextPage nonzero (hence present under omitempty) exactly when currentPage
< totalPages and then equal to currentPage + 1, and prevPage nonzero
exactly when currentPage > 1 and then equal to currentPage - 1; in
particular totalCount 25 with limit 10 gives totalPages 3, offset 0 gives
currentPage 1 with nextPage 2 and prevPage omitted, offset 20 gives
currentPage 3 with prevPage 2 and nextPage omitted; and every ok result
of the service GetAllAds carries exactly these fields computed from the
store row count. -/
theorem pagination_metadata_spec (totalCount limit offset : Int)
    (h1 : 0 ≤ totalCount) (h2 : 0 < limit) (h3 : 0 ≤ offset) :
    ((Service.computePagination totalCount limit offset).totalPages
        = ⌈(totalCount : ℚ) / (limit : ℚ)⌉
      ∧ (Service.computePagination totalCount limit offset).currentPage
          = ⌊(offset : ℚ) / (limit : ℚ)⌋ + 1
      ∧ ((Service.computePagination totalCount limit offset).nextPage ≠ 0
          ↔ (Service.computePagination totalCount limit offset).currentPage
              < (Service.computePagination totalCount limit offset).totalPages)
      ∧ ((Service.computePagination totalCount limit offset).nextPage ≠ 0 →
          (Service.computePagination totalCount limit offset).nextPage
            = (Service.computePagination totalCount limit offset).currentPage + 1)
      ∧ ((Service.computePagination totalCount limit offset).prevPage ≠ 0
          ↔ 1 < (Service.computePagination totalCount limit offset).currentPage)
      ∧ ((Service.computePagination totalCount limit offset).prevPage ≠ 0 →
          (Service.computePagination totalCount limit offset).prevPage
            = (Service.computePagination totalCount limit offset).currentPage - 1))
      ∧ (Service.computePagination 25 10 0 = ⟨[], 1, 2, 0, 3⟩
        ∧ Service.computePagination 25 10 20 = ⟨[], 3, 0, 2, 3⟩)
      ∧ (∀ (c : CacheState) (db : DBState) (f : Service.ListSvcFaults)
            (sortBy order : String) (p : Service.PaginationResult),
          (Service.GetAllAds c db f limit offset sortBy order).res = Except.ok p →
            p.currentPage
                = (Service.computePagination (Int.ofNat db.rows.length) limit offset).currentPage
              ∧ p.nextPage
                  = (Service.computePagination (Int.ofNat db.rows.length) limit offset).nextPage
              ∧ p.prevPage
                  = (Service.computePagination (Int.ofNat db.rows.length) limit offset).prevPage
              ∧ p.totalPages
                  = (Service.computePagination (Int.ofNat db.rows.length) limit offset).totalPages) := by
  have hl0 : (0 : ℚ) < (limit : ℚ) := by exact_mod_cast h2
  have htp : (totalCount + limit - 1).tdiv limit = (totalCount + limit - 1) / limit :=
    Int.tdiv_eq_ediv (by omega) (by omega)
  have hcp : offset.tdiv limit = offset / limit := Int.tdiv_eq_ediv h3 h2.le
  have hTPdef : (Service.computePagination totalCount limit offset).totalPages
      = (totalCount + limit - 1).tdiv limit := rfl
  have hCPdef : (Service.computePagination totalCount limit offset).currentPage
      = offset.tdiv limit + 1 := rfl
  have hNPdef : (Service.computePagination totalCount limit offset).nextPage
      = if offset.tdiv limit + 1 < (totalCount + limit - 1).tdiv limit
        then offset.tdiv limit + 1 + 1 else 0 := rfl
  have hPPdef : (Service.computePagination totalCount limit offset).prevPage
      = if offset.tdiv limit + 1 > 1 then offset.tdiv limit + 1 - 1 else 0 := rfl
  -- bounds for the ceiling identity
  have hqmod : limit * ((totalCount + limit - 1) / limit) + (totalCount + limit - 1) % limit
      = totalCount + limit - 1 := Int.ediv_add_emod _ _
  have hr0 : 0 ≤ (totalCount + limit - 1) % limit := Int.emod_nonneg _ (by omega)
  have hrl : (totalCount + limit - 1) % limit + 1 ≤ limit :=
    Int.lt_iff_add_one_le.mp (Int.emod_lt_of_pos _ h2)
  have hA : totalCount ≤ limit * ((totalCount + limit - 1) / limit) := by linarith
  have hB : limit * ((totalCount + limit - 1) / limit) < totalCount + limit := by linarith
  have hceil : ⌈(totalCount : ℚ) / (limit : ℚ)⌉ = (totalCount + limit - 1) / limit := by
    rw [Int.ceil_eq_iff]
    constructor
    · rw [lt_div_iff₀ hl0]
      have hgoal : ((totalCount + limit - 1) / limit - 1) * limit < totalCount := by nlinarith
      exact_mod_cast hgoal
    · rw [div_le_iff₀ hl0]
      have hgoal : totalCount ≤ ((totalCount + limit - 1) / limit) * limit := by nlinarith
      exact_mod_cast hgoal
  -- bounds for the floor identity
  have hdmod : limit * (offset / limit) + offset % limit = offset := Int.ediv_add_emod _ _
  have hd0 : 0 ≤ offset % limit := Int.emod_nonneg _ (by omega)
  have hdl : offset % limit + 1 ≤ limit := Int.lt_iff_add_one_le.mp (Int.emod_lt_of_pos _ h2)
  have hfloor : ⌊(offset : ℚ) / (limit : ℚ)⌋ = offset / limit := by
    rw [Int.floor_eq_iff]
    constructor
    · rw [le_div_iff₀ hl0]
      have hgoal : (offset / limit) * limit ≤ offset := by nlinarith
      exact_mod_cast hgoal
    · rw [div_lt_iff₀ hl0]
      have hgoal : offset < (offset / limit + 1) * limit := by nlinarith
      exact_mod_cast hgoal
  have hcp1 : 0 ≤ offset / limit := Int.ediv_nonneg h3 h2.le
  refine ⟨⟨?_, ?_, ?_, ?_, ?_, ?_⟩, ⟨by decide, by decide⟩, ?_⟩
  · rw [hTPdef, htp, hceil]
  · rw [hCPdef, hcp, hfloor]
  · rw [hNPdef, hTPdef, hCPdef, hcp, htp]
    split
    · constructor
      · intro _
        assumption
      · intro _
        omega
    · constructor
      · intro hc
        exact absurd rfl hc
      · intro hc
        omega
  · rw [hNPdef, hCPdef]
    split
    · intro _
      rfl
    · intro hc
      exact absurd rfl hc
  · rw [hPPdef, hCPdef, hcp]
    split
    · constructor
      · intro _
        omega
      · intro _
        omega
    · constructor
      · intro hc
        exact absurd rfl hc
      · intro hc
        omega
  · rw [hPPdef, hCPdef]
    split
    · intro _
      rfl
    · intro hc
      exact absurd rfl hc
  · intro c db f sortBy order p hok
    rcases hres : (Repository.GetAllAds c db f.list limit offset sortBy order).res with e | ads
    · simp [Service.GetAllAds, hres] at hok
    · cases hcf : f.countFails with
      | true =>
        simp [Service.GetAllAds, hres, Repository.CountAds, hcf] at hok
      | false =>
        have hdbp := getAllAds_preserves_db c db f.list limit offset sortBy order
        simp [Service.GetAllAds, hres, Repository.CountAds, hcf, hdbp] at hok
        subst hok
        exact ⟨rfl, rfl, rfl, rfl⟩

theorem pagination_metadata_spec_witness :
    (0 : Int) ≤ 25 ∧ (0 : Int) < 10 ∧ (0 : Int) ≤ 0
      ∧ (Service.computePagination 25 10 0).totalPages = ⌈(25 : ℚ) / (10 : ℚ)⌉
      ∧ (Service.computePagination 25 10 0).currentPage = ⌊(0 : ℚ) / (10 : ℚ)⌋ + 1 :=
  ⟨by norm_num, by norm_num, by norm_num,
   ((pagination_metadata_spec 25 10 0 (by norm_num) (by norm_num) (by norm_num)).1).1,
   ((pagination_metadata_spec 25 10 0 (by norm_num) (by norm_num) (by norm_num)).1).2.1⟩

end AdSvc
